import Mathlib

/-!
Verification development for the color-scheme generator (`colors.py`).

The Python source is shallowly embedded: sRGB colors are integer triples,
Python floats are modeled as real numbers (rationals where the source only
performs field operations and comparisons on exactly representable values,
such as the annealing temperature schedule), `int(...)` is truncation toward
zero, `round(...)` is round-half-to-even, and the random source is made
explicit as streams of draws threaded through the optimizer.
-/

set_option maxRecDepth 8000

noncomputable section

open Real

/-- An sRGB color: three integer channels (`(r, g, b)` tuple in the source). -/
abbrev Color := ℤ × ℤ × ℤ

/-- A CIELAB color `(L, a, b)`, produced by `rgb_to_lab`. -/
abbrev LabColor := ℝ × ℝ × ℝ

/-- Channels within the displayable range `[0, 255]`. -/
def ColorInRange (c : Color) : Prop :=
  0 ≤ c.1 ∧ c.1 ≤ 255 ∧ 0 ≤ c.2.1 ∧ c.2.1 ≤ 255 ∧ 0 ≤ c.2.2 ∧ c.2.2 ≤ 255

instance : DecidablePred ColorInRange := fun c => by unfold ColorInRange; infer_instance

/-- Python `int(x)` on a real value: truncation toward zero. -/
def pyInt (x : ℝ) : ℤ := if x < 0 then ⌈x⌉ else ⌊x⌋

/-- Python `int(x)` on an exactly-representable (rational) value. -/
def pyIntQ (x : ℚ) : ℤ := if x < 0 then ⌈x⌉ else ⌊x⌋

/-- Python `round(x)` on an exactly-representable value: round half to even. -/
def pyRound (x : ℚ) : ℤ :=
  if x - ⌊x⌋ < 1/2 then ⌊x⌋
  else if 1/2 < x - ⌊x⌋ then ⌊x⌋ + 1
  else if ⌊x⌋ % 2 = 0 then ⌊x⌋ else ⌊x⌋ + 1

/-- Read channel `i` of a color (`color[i]` in the source). -/
def channelGet (c : Color) : Fin 3 → ℤ
  | 0 => c.1
  | 1 => c.2.1
  | 2 => c.2.2

/-- Replace channel `i` of a color (`new_color[i] = v` in the source). -/
def channelSet (c : Color) (i : Fin 3) (v : ℤ) : Color :=
  match i with
  | 0 => (v, c.2.1, c.2.2)
  | 1 => (c.1, v, c.2.2)
  | 2 => (c.1, c.2.1, v)

/-- `average(array)`: sum divided by length, `0` for the empty list. -/
def average (array : List ℝ) : ℝ :=
  if array = [] then 0 else array.sum / array.length

/-- `random_nearby_color(color)`: the chosen channel and the uniform draw from
`[-0.05, 0.05]` are explicit arguments.  The chosen channel is normalized to
`[0,1]`, shifted, clamped to `[0,1]`, and converted back with `int(v * 255)`. -/
def random_nearby_color (ch : Fin 3) (delta : ℚ) (color : Color) : Color :=
  let old_val : ℚ := (channelGet color ch : ℚ) / 255
  let new_val : ℚ := old_val + delta
  let clamped : ℚ := min (max new_val 0) 1
  channelSet color ch (pyIntQ (clamped * 255))

/-- The nonlinear companding helper `_f` inside `rgb_to_lab`. -/
def labF (t : ℝ) : ℝ :=
  if t > 0.008856 then t ^ ((1 : ℝ)/3) else 7.787 * t + 16/116

/-- The per-channel sRGB step of `rgb_to_lab` (lines
`R = _f((R + 0.055) / 1.055) if R > 0.04045 else R / 12.92`), applied to the
already 0-1-normalized channel value. -/
def rgb_to_lab_srgb_step (v : ℝ) : ℝ :=
  if v > 0.04045 then labF ((v + 0.055) / 1.055) else v / 12.92

/-- `rgb_to_lab(inputColor)`: sRGB integer triple to CIELAB. -/
def rgb_to_lab (inputColor : Color) : LabColor :=
  let R := (inputColor.1 : ℝ) / 255
  let G := (inputColor.2.1 : ℝ) / 255
  let B := (inputColor.2.2 : ℝ) / 255
  let R' := rgb_to_lab_srgb_step R
  let G' := rgb_to_lab_srgb_step G
  let B' := rgb_to_lab_srgb_step B
  let X := R' * 0.4124564 + G' * 0.3575761 + B' * 0.1804375
  let Y := R' * 0.2126729 + G' * 0.7151522 + B' * 0.0721750
  let Z := R' * 0.0193339 + G' * 0.1191920 + B' * 0.9503041
  let X' := labF (X / 0.95047)
  let Y' := labF (Y / 1.0)
  let Z' := labF (Z / 1.08883)
  (116 * Y' - 16, 500 * (X' - Y'), 200 * (Y' - Z'))

/-- `srgb_from_linear_rgb(value)`: linear RGB in `[0,1]` back to an sRGB
integer channel, clamped to `[0, 255]`. -/
def srgb_from_linear_rgb (value : ℝ) : ℤ :=
  if value ≤ 0 then 0
  else if value ≥ 1 then 255
  else if value < 0.0031308 then pyInt (0.5 + value * 12.92 * 255)
  else pyInt (0 + 255 * ((value ^ ((1.0 : ℝ) / 2.4)) * 1.055 - 0.055))

/-- `linear_rgb_from_srgb(value)`: sRGB integer channel to linear RGB. -/
def linear_rgb_from_srgb (value : ℕ) : ℝ :=
  let fv : ℝ := (value : ℝ) / 255.0
  if fv < 0.04045 then fv / 12.92 else ((fv + 0.055) / 1.055) ^ (2.4 : ℝ)

/-- `srgb_to_linear_rgb_lookup()`: the 256-entry table of linear values. -/
def srgb_to_linear_rgb_lookup : List ℝ :=
  (List.range 256).map fun i => linear_rgb_from_srgb i

/-- Value of a hexadecimal digit character, `none` when invalid. -/
def hexDigitVal (c : Char) : Option ℕ :=
  if '0' ≤ c ∧ c ≤ '9' then some (c.toNat - '0'.toNat)
  else if 'a' ≤ c ∧ c ≤ 'f' then some (c.toNat - 'a'.toNat + 10)
  else if 'A' ≤ c ∧ c ≤ 'F' then some (c.toNat - 'A'.toNat + 10)
  else none

/-- Python `int(s, 16)` on a two-character slice. -/
def parseHexByte (c1 c2 : Char) : Option ℕ :=
  match hexDigitVal c1, hexDigitVal c2 with
  | some h, some l => some (16 * h + l)
  | _, _ => none

/-- The `ValueError` message raised by `hex_to_rgb` on a malformed string. -/
def hexFormatErrorMsg : String :=
  "Input must be a hex color string in the format '#RRGGBB'."

/-- Python `str.startswith` on a single-character needle; strings are modeled
as their character sequences. -/
def pyStartsWith (s : List Char) (c : Char) : Bool :=
  match s with
  | [] => false
  | c0 :: _ => c0 = c

/-- `hex_to_rgb(hex_color)`: parse `#RRGGBB`; a missing leading `#` or a
length other than 7 raises `ValueError` (the spec's `FormatError`), as does a
non-hexadecimal digit (Python's `int(_, 16)` raises `ValueError`). -/
def hex_to_rgb (hex_color : List Char) : Except String Color :=
  if ¬ pyStartsWith hex_color '#' ∨ hex_color.length ≠ 7 then
    .error hexFormatErrorMsg
  else
    match parseHexByte (hex_color.getD 1 ' ') (hex_color.getD 2 ' '),
          parseHexByte (hex_color.getD 3 ' ') (hex_color.getD 4 ' '),
          parseHexByte (hex_color.getD 5 ' ') (hex_color.getD 6 ' ') with
    | some r, some g, some b => .ok ((r : ℤ), (g : ℤ), (b : ℤ))
    | _, _, _ => .error "invalid literal for int() with base 16"

/-- `math.atan2(y, x)`, realized as the argument of the complex number
`x + y*i`, which lies in `(-pi, pi]` exactly as Python's `atan2` does on
non-zero inputs. -/
def atan2 (y x : ℝ) : ℝ := Complex.arg ⟨x, y⟩

/-- `math.radians(x)`. -/
def radians (x : ℝ) : ℝ := x * π / 180

/-- The `G` chroma correction factor of CIEDE2000 (`G = 0.5 * (1 -
sqrt(Cabbar^7 / (Cabbar^7 + 25^7)))` with `Cabbar = (C1 + C2)/2`). -/
def gFactor (C1 C2 : ℝ) : ℝ :=
  0.5 * (1 - Real.sqrt (((C1 + C2) / 2) ^ 7 / (((C1 + C2) / 2) ^ 7 + 25 ^ 7)))

/-- Hue angle of CIEDE2000: `atan2(b, aprime)` shifted into `[0, 2*pi)`. -/
def hprimeOf (b aprime : ℝ) : ℝ :=
  let h := atan2 b aprime
  if h < 0 then h + 2 * π else h

/-- The adjusted hue difference `deltahprime` of CIEDE2000 (the branch block
after `deltahprime = h2prime - h1prime` in the source). -/
def deltahprimeOf (C1prime C2prime h1prime h2prime : ℝ) : ℝ :=
  let dh := h2prime - h1prime
  if C1prime * C2prime ≠ 0 then
    if |dh| ≤ π then dh
    else if dh > π then dh - 2 * π
    else dh + 2 * π
  else dh

/-- The adjusted mean hue `hbarprime` of CIEDE2000. -/
def hbarprimeOf (C1prime C2prime h1prime h2prime : ℝ) : ℝ :=
  let hbar := (h1prime + h2prime) / 2
  if C1prime * C2prime ≠ 0 then
    if |h1prime - h2prime| > π then hbar + π else hbar
  else hbar

/-- The tail of the CIEDE2000 computation (source lines from `deltaHprime =`
through the argument of the final `math.sqrt`), as a function of the values
live at that point: `deltaLprime`, `deltaCprime`, the two adjusted chromas,
the adjusted hue difference, `Lbar`, `Cbarprime` and `hbarprime`. -/
def ciede2000Tail (dL dC C1prime C2prime dh Lbar Cbarprime hbarprime : ℝ) : ℝ :=
  let dH := 2 * Real.sqrt (C1prime * C2prime) * Real.sin (dh / 2)
  let T := 1 - 0.17 * Real.cos (hbarprime - radians 30)
      + 0.24 * Real.cos (2 * hbarprime)
      + 0.32 * Real.cos (3 * hbarprime + radians 6)
      - 0.20 * Real.cos (4 * hbarprime - radians 63)
  let SL := 1 + (0.015 * (Lbar - 50) ^ 2) / Real.sqrt (20 + (Lbar - 50) ^ 2)
  let SC := 1 + 0.045 * Cbarprime
  let SH := 1 + 0.015 * Cbarprime * T
  let RT := -2 * Real.sqrt (Cbarprime ^ 7 / (Cbarprime ^ 7 + 25 ^ 7)) *
      Real.sin (radians (60 * Real.exp (-(((hbarprime - radians 275) / radians 25)) ^ 2)))
  (dL / SL) ^ 2 + (dC / SC) ^ 2 + (dH / SH) ^ 2 + RT * (dC / SC) * (dH / SH)

/-- The argument of the final `math.sqrt` in `delta_e_ciede2000`, with all
intermediate quantities computed exactly as in the source. -/
def ciede2000Radicand (color1_lab color2_lab : LabColor) : ℝ :=
  let L1 := color1_lab.1
  let a1 := color1_lab.2.1
  let b1 := color1_lab.2.2
  let L2 := color2_lab.1
  let a2 := color2_lab.2.1
  let b2 := color2_lab.2.2
  let C1 := Real.sqrt (a1 ^ 2 + b1 ^ 2)
  let C2 := Real.sqrt (a2 ^ 2 + b2 ^ 2)
  let G := gFactor C1 C2
  let a1prime := a1 * (1 + G)
  let a2prime := a2 * (1 + G)
  let C1prime := Real.sqrt (a1prime ^ 2 + b1 ^ 2)
  let C2prime := Real.sqrt (a2prime ^ 2 + b2 ^ 2)
  let h1prime := hprimeOf b1 a1prime
  let h2prime := hprimeOf b2 a2prime
  ciede2000Tail (L2 - L1) (C2prime - C1prime) C1prime C2prime
    (deltahprimeOf C1prime C2prime h1prime h2prime)
    ((L1 + L2) / 2) ((C1prime + C2prime) / 2)
    (hbarprimeOf C1prime C2prime h1prime h2prime)

/-- `delta_e_ciede2000(color1_lab, color2_lab)`: the CIEDE2000 color
difference. -/
def delta_e_ciede2000 (color1_lab color2_lab : LabColor) : ℝ :=
  Real.sqrt (ciede2000Radicand color1_lab color2_lab)

/-- `distance(color1, color2)` restricted to RGB-tuple inputs (the branch the
cost pipeline exercises: `"#" in (r, g, b)` is false in Python): convert both
colors to Lab and return the CIEDE2000 difference. -/
def distance (color1 color2 : Color) : ℝ :=
  delta_e_ciede2000 (rgb_to_lab color1) (rgb_to_lab color2)

/-- A real 3-vector (a linear-RGB value in the Brettel simulation). -/
abbrev Vec3 := ℝ × ℝ × ℝ

/-- Dot product of 3-vectors (`sum(r * n for r, n in zip(rgb, normal))`). -/
def dot3 (a b : Vec3) : ℝ := a.1 * b.1 + a.2.1 * b.2.1 + a.2.2 * b.2.2

/-- A 3x3 matrix, stored as its three rows (the source stores the nine
entries of `rgbCvdFromRgb_*` row-major). -/
abbrev Mat3 := Vec3 × Vec3 × Vec3

/-- Matrix-vector application: `[sum(m[i + j] * rgb[j] for j in range(3)) for
i in range(0, 9, 3)]`. -/
def mat3Apply (m : Mat3) (v : Vec3) : Vec3 :=
  (dot3 m.1 v, dot3 m.2.1 v, dot3 m.2.2 v)

/-- Deficiency tags of `brettel_params`. -/
inductive DefTag | protan | deutan | tritan
  deriving DecidableEq

/-- `brettel_params[t]`: `(rgbCvdFromRgb_1, rgbCvdFromRgb_2,
separationPlaneNormal)`, hard-coded empirical constants. -/
def brettel_params : DefTag → Mat3 × Mat3 × Vec3
  | .protan =>
    (((0.1451, 1.20165, -0.34675), (0.10447, 0.85316, 0.04237),
      (0.00429, -0.00603, 1.00174)),
     ((0.14115, 1.16782, -0.30897), (0.10495, 0.8573, 0.03776),
      (0.00431, -0.00586, 1.00155)),
     (0.00048, 0.00416, -0.00464))
  | .deutan =>
    (((0.36198, 0.86755, -0.22953), (0.26099, 0.64512, 0.09389),
      (-0.01975, 0.02686, 0.99289)),
     ((0.37009, 0.8854, -0.25549), (0.25767, 0.63782, 0.10451),
      (-0.0195, 0.02741, 0.99209)),
     (-0.00293, -0.00645, 0.00938))
  | .tritan =>
    (((1.01354, 0.14268, -0.15622), (-0.01181, 0.87561, 0.13619),
      (0.07707, 0.81208, 0.11085)),
     ((0.93337, 0.19999, -0.13336), (0.05809, 0.82565, 0.11626),
      (-0.37923, 1.13825, 0.24098)),
     (0.0396, -0.02831, -0.01129))

/-- Channel lookup `srgb_to_linear_rgb_lookup()[c]`. -/
def linearLookup (c : ℤ) : ℝ := srgb_to_linear_rgb_lookup.getD c.toNat 0

/-- `brettel(srgb, t, severity)`: simulate a color-vision deficiency. -/
def brettel (srgb : Color) (t : DefTag) (severity : ℝ) : Color :=
  let rgb : Vec3 := (linearLookup srgb.1, linearLookup srgb.2.1, linearLookup srgb.2.2)
  let params := brettel_params t
  let separation_plane_normal := params.2.2
  let rgb_cvd_from_rgb :=
    if dot3 rgb separation_plane_normal ≥ 0 then params.1 else params.2.1
  let rgb_cvd := mat3Apply rgb_cvd_from_rgb rgb
  let mixed : Vec3 :=
    (rgb_cvd.1 * severity + rgb.1 * (1.0 - severity),
     rgb_cvd.2.1 * severity + rgb.2.1 * (1.0 - severity),
     rgb_cvd.2.2 * severity + rgb.2.2 * (1.0 - severity))
  (srgb_from_linear_rgb mixed.1, srgb_from_linear_rgb mixed.2.1,
   srgb_from_linear_rgb mixed.2.2)

/-- `monochrome_with_severity(srgb, severity)`: blend with the rounded
luminance `z`.  All arithmetic here is exact, so the severity is a rational. -/
def monochrome_with_severity (srgb : Color) (severity : ℚ) : Color :=
  let z : ℤ := pyRound ((srgb.1 : ℚ) * 0.299 + (srgb.2.1 : ℚ) * 0.587 + (srgb.2.2 : ℚ) * 0.114)
  let r : ℚ := (z : ℚ) * severity + (1.0 - severity) * (srgb.1 : ℚ)
  let g : ℚ := (z : ℚ) * severity + (1.0 - severity) * (srgb.2.1 : ℚ)
  let b : ℚ := (z : ℚ) * severity + (1.0 - severity) * (srgb.2.2 : ℚ)
  (pyIntQ r, pyIntQ g, pyIntQ b)

/-- The keys of the `brettel_functions()` dictionary. -/
inductive VisionSpace
  | Normal | Protanopia | Protanomaly | Deuteranopia | Deuteranomaly
  | Tritanopia | Tritanomaly | Achromatopsia | Achromatomaly
  deriving DecidableEq

/-- `brettel_functions()`: the named vision-deficiency simulators. -/
def brettel_functions : VisionSpace → Color → Color
  | .Normal => fun v => v
  | .Protanopia => fun v => brettel v .protan 1.0
  | .Protanomaly => fun v => brettel v .protan 0.6
  | .Deuteranopia => fun v => brettel v .deutan 1.0
  | .Deuteranomaly => fun v => brettel v .deutan 0.6
  | .Tritanopia => fun v => brettel v .tritan 1.0
  | .Tritanomaly => fun v => brettel v .tritan 0.6
  | .Achromatopsia => fun v => monochrome_with_severity v 1.0
  | .Achromatomaly => fun v => monochrome_with_severity v 0.6

/-- The nested loop of `distances`: CIE distances of all pairs `i < j`, outer
index ascending, inner index ascending. -/
def pairwiseDistances : List Color → List ℝ
  | [] => []
  | c :: rest => rest.map (distance c) ++ pairwiseDistances rest

/-- `distances(color_array, visionSpace)`: process every color through the
named simulator, then collect the pairwise CIE distances. -/
def distances (color_array : List Color) (visionSpace : VisionSpace) : List ℝ :=
  pairwiseDistances (color_array.map (brettel_functions visionSpace))

/-- `get_closest_color(color, color_array)`: linear scan keeping the first
strict minimizer; `none` when the array is empty. -/
def get_closest_color (color : Color) (color_array : List Color) : Option Color :=
  (color_array.foldl
    (fun acc color_option =>
      match acc with
      | none => some (distance color color_option, color_option)
      | some (m, b) =>
        if distance color color_option < m then
          some (distance color color_option, color_option)
        else some (m, b))
    none).map Prod.snd

/-- `distance_range(array)`: highest minus lowest value (via `sorted`), `0`
for fewer than two elements. -/
def distance_range (array : List ℝ) : ℝ :=
  if array.length < 2 then 0
  else
    let sorted_array := array.insertionSort (· ≤ ·)
    sorted_array.getLastD 0 - sorted_array.headD 0

/-- The hexadecimal literals of the global `target_colors` list. -/
def target_colors_hex : List (List Char) :=
  ["#9966FF".toList, "#0055BC".toList, "#00A1C2".toList, "#ED6804".toList,
   "#B3063D".toList]

/-- The global `target_colors` reference palette, as RGB triples (each cost
evaluation converts the hexadecimal strings through `hex_to_rgb`). -/
def target_colors : List Color :=
  [(153, 102, 255), (0, 85, 188), (0, 161, 194), (237, 104, 4), (179, 6, 61)]

/-- Fidelity of `target_colors`: the RGB triples are exactly what
`hex_to_rgb` produces on the source's hexadecimal literals. -/
lemma target_colors_hex_parse :
    target_colors_hex.map hex_to_rgb = target_colors.map Except.ok := by rfl

/-- `average_distance_from_target_colors(colors)`: mean distance of each
color to its nearest `target_colors` entry (the `getD` default is never used:
`target_colors` is non-empty, so `get_closest_color` returns `some`). -/
def average_distance_from_target_colors (colors : List Color) : ℝ :=
  average (colors.map fun c =>
    distance c ((get_closest_color c target_colors).getD (0, 0, 0)))

/-- `cost(state)`: the weighted sum of the six sub-scores. -/
def cost (state : List Color) : ℝ :=
  let energy_weight : ℝ := 1
  let range_weight : ℝ := 1
  let target_weight : ℝ := 1
  let protanopia_weight : ℝ := 0.33
  let deuteranopia_weight : ℝ := 0.33
  let tritanopia_weight : ℝ := 0.33
  let normal_distances := distances state .Normal
  let protanopia_distances := distances state .Protanopia
  let deuteranopia_distances := distances state .Deuteranopia
  let tritanopia_distances := distances state .Tritanopia
  let energy_score := 100 - average normal_distances
  let protanopia_score := 100 - average protanopia_distances
  let deuteranopia_score := 100 - average deuteranopia_distances
  let tritanopia_score := 100 - average tritanopia_distances
  let range_score := distance_range normal_distances
  let target_score := average_distance_from_target_colors state
  energy_weight * energy_score +
  target_weight * target_score +
  range_weight * range_score +
  protanopia_weight * protanopia_score +
  deuteranopia_weight * deuteranopia_score +
  tritanopia_weight * tritanopia_score

/-- The optimizer's initial control value (`temperature = 1000`). -/
def initialTemperature : ℚ := 1000

/-- The optimizer's multiplicative decay (`cooling_rate = 0.99`). -/
def cooling_rate : ℚ := 0.99

/-- The optimizer's termination threshold (`cutoff = 0.0001`). -/
def cutoff : ℚ := 0.0001

/-- The temperature schedule always drops to the cutoff: the loop of
`optimize` terminates. -/
lemma decay_exists (t : ℚ) : ∃ k, t * cooling_rate ^ k ≤ cutoff := by
  rcases le_or_lt t 0 with h | h
  · refine ⟨0, ?_⟩
    simp only [pow_zero, mul_one]
    calc t ≤ 0 := h
    _ ≤ cutoff := by norm_num [cutoff]
  · obtain ⟨k, hk⟩ := exists_pow_lt_of_lt_one
      (show (0 : ℚ) < cutoff / t from div_pos (by norm_num [cutoff]) h)
      (show cooling_rate < 1 by norm_num [cooling_rate])
    refine ⟨k, le_of_lt ?_⟩
    calc t * cooling_rate ^ k < t * (cutoff / t) :=
      mul_lt_mul_of_pos_left hk h
    _ = cutoff := by field_simp

/-- Number of outer iterations the `while temperature > cutoff` loop will
still perform when the control value is `t`. -/
def decaySteps (t : ℚ) : ℕ := Nat.find (decay_exists t)

lemma decaySteps_of_le {t : ℚ} (h : t ≤ cutoff) : decaySteps t = 0 := by
  simpa [decaySteps] using h

lemma decaySteps_cool {t : ℚ} (h : cutoff < t) :
    decaySteps t = decaySteps (t * cooling_rate) + 1 := by
  have hspec : t * cooling_rate ^ decaySteps t ≤ cutoff :=
    Nat.find_spec (decay_exists t)
  have hspec2 : (t * cooling_rate) * cooling_rate ^ decaySteps (t * cooling_rate) ≤ cutoff :=
    Nat.find_spec (decay_exists (t * cooling_rate))
  have h0 : ¬ t * cooling_rate ^ 0 ≤ cutoff := by
    simpa using not_le_of_lt h
  have hpos : 0 < decaySteps t := by
    rcases Nat.eq_zero_or_pos (decaySteps t) with hz | hp
    · rw [hz] at hspec; exact absurd hspec h0
    · exact hp
  apply le_antisymm
  · have hstep : t * cooling_rate ^ (decaySteps (t * cooling_rate) + 1) ≤ cutoff := by
      calc t * cooling_rate ^ (decaySteps (t * cooling_rate) + 1)
          = (t * cooling_rate) * cooling_rate ^ decaySteps (t * cooling_rate) := by ring
        _ ≤ cutoff := hspec2
    exact Nat.find_le hstep
  · obtain ⟨m, hm⟩ : ∃ m, decaySteps t = m + 1 := ⟨decaySteps t - 1, by omega⟩
    have hmle : (t * cooling_rate) * cooling_rate ^ m ≤ cutoff := by
      calc (t * cooling_rate) * cooling_rate ^ m = t * cooling_rate ^ (m + 1) := by ring
        _ ≤ cutoff := by rw [← hm]; exact hspec
    have hfind : decaySteps (t * cooling_rate) ≤ m := Nat.find_le hmle
    omega

lemma decaySteps_lt {t : ℚ} (h : cutoff < t) :
    decaySteps (t * cooling_rate) < decaySteps t := by
  rw [decaySteps_cool h]; omega

/-- One body of the inner `for` loop of `optimize`: build the candidate
(`new_colors`, equal to the current palette except at index `i`, which is
perturbed by `random_nearby_color`), then keep it only when its cost is
strictly lower. -/
def mutateStep (costFn : List Color → ℝ) (colors : List Color) (i : ℕ)
    (ch : Fin 3) (delta : ℚ) : List Color :=
  let new_colors := colors.set i (random_nearby_color ch delta (colors.getD i (0, 0, 0)))
  if costFn new_colors < costFn colors then new_colors else colors

/-- The inner `for i in range(len(colors))` loop, threading the counter into
the stream of `(channel, shift)` random draws. -/
def innerPassAux (costFn : List Color → ℝ) (rng : ℕ → Fin 3 × ℚ) :
    List ℕ → ℕ → List Color → List Color × ℕ
  | [], ctr, colors => (colors, ctr)
  | i :: rest, ctr, colors =>
    innerPassAux costFn rng rest (ctr + 1)
      (mutateStep costFn colors i (rng ctr).1 (rng ctr).2)

/-- One full inner pass over all palette indices. -/
def innerPass (costFn : List Color → ℝ) (rng : ℕ → Fin 3 × ℚ) (ctr : ℕ)
    (colors : List Color) : List Color × ℕ :=
  innerPassAux costFn rng (List.range colors.length) ctr colors

/-- The `while temperature > cutoff` loop of `optimize`; returns the final
palette together with the final value of the iteration counter `idx`. -/
def annealLoop (costFn : List Color → ℝ) (rng : ℕ → Fin 3 × ℚ)
    (temperature : ℚ) (ctr idx : ℕ) (colors : List Color) : List Color × ℕ :=
  if h : temperature > cutoff then
    annealLoop costFn rng (temperature * cooling_rate)
      (innerPass costFn rng ctr colors).2 (idx + 1)
      (innerPass costFn rng ctr colors).1
  else (colors, idx)
termination_by decaySteps temperature
decreasing_by exact decaySteps_lt h

/-- Run the annealing loop of `optimize` on a starting palette, with the
hyperparameters of the source and the real `cost` function. -/
def annealPalette (colors : List Color) (rng : ℕ → Fin 3 × ℚ) : List Color :=
  (annealLoop cost rng initialTemperature 0 0 colors).1

/-- The message of the exception `optimize` raises on a size mismatch. -/
def configErrorMsg (n : ℕ) : String :=
  "Error: please provide " ++ toString n ++ " starting colors."

/-- `optimize(n, input_colors)`: validate or randomly draw the starting
palette, then run the annealing loop.  `initStream` models the draws of
`random_rgb_color()` and `perturbStream` those of `random_nearby_color`. -/
def optimize (n : ℕ) (input_colors : List Color) (initStream : ℕ → Color)
    (perturbStream : ℕ → Fin 3 × ℚ) : Except String (List Color) :=
  if input_colors = [] then
    .ok (annealPalette ((List.range n).map initStream) perturbStream)
  else if input_colors.length ≠ n then
    .error (configErrorMsg n)
  else
    .ok (annealPalette input_colors perturbStream)

/-- A Python heap of list objects, for the aliasing-sensitive reading of
`optimize`: list variables are references (indices) into the heap, so that
`copy.deepcopy` versus aliasing is observable. -/
abbrev Heap := List (List Color)

/-- Dereference a list variable. -/
def heapRead (h : Heap) (r : ℕ) : List Color := h.getD r []

/-- In-place update of the list object behind reference `r`. -/
def heapWrite (h : Heap) (r : ℕ) (v : List Color) : Heap := h.set r v

/-- Allocate a fresh list object (`copy.deepcopy` and list literals). -/
def heapAlloc (h : Heap) (v : List Color) : Heap := h ++ [v]

/-- One body of the inner `for` loop of `optimize`, on the heap:
`new_colors = copy.deepcopy(colors)` allocates, `new_colors[i] = ...` mutates
the fresh object, and on strict cost improvement `colors[i] = new_colors[i]`
mutates the object behind `colorsRef`. -/
def mutateStepHeap (costFn : List Color → ℝ) (h : Heap) (colorsRef : ℕ)
    (i : ℕ) (ch : Fin 3) (delta : ℚ) : Heap :=
  let colors := heapRead h colorsRef
  let newRef := h.length
  let h1 := heapAlloc h colors
  let h2 := heapWrite h1 newRef
    ((heapRead h1 newRef).set i
      (random_nearby_color ch delta ((heapRead h1 newRef).getD i (0, 0, 0))))
  let new_colors := heapRead h2 newRef
  let colors2 := heapRead h2 colorsRef
  if costFn new_colors < costFn colors2 then
    heapWrite h2 colorsRef (colors2.set i (new_colors.getD i (0, 0, 0)))
  else h2

/-- The inner `for i in range(len(colors))` loop, on the heap. -/
def innerPassHeapAux (costFn : List Color → ℝ) (rng : ℕ → Fin 3 × ℚ)
    (colorsRef : ℕ) : List ℕ → ℕ → Heap → Heap × ℕ
  | [], ctr, h => (h, ctr)
  | i :: rest, ctr, h =>
    innerPassHeapAux costFn rng colorsRef rest (ctr + 1)
      (mutateStepHeap costFn h colorsRef i (rng ctr).1 (rng ctr).2)

/-- The `while` loop of `optimize`, on the heap. -/
def annealLoopHeap (costFn : List Color → ℝ) (rng : ℕ → Fin 3 × ℚ)
    (colorsRef : ℕ) (temperature : ℚ) (ctr : ℕ) (h : Heap) : Heap :=
  if _hc : temperature > cutoff then
    annealLoopHeap costFn rng colorsRef (temperature * cooling_rate)
      (innerPassHeapAux costFn rng colorsRef
        (List.range (heapRead h colorsRef).length) ctr h).2
      (innerPassHeapAux costFn rng colorsRef
        (List.range (heapRead h colorsRef).length) ctr h).1
  else h
termination_by decaySteps temperature
decreasing_by exact decaySteps_lt _hc

/-- `optimize(n, input_colors)` on the heap: `input_colors` is a reference to
a caller-owned list object; the starting palette is a fresh deep copy (or a
fresh random list), and only that fresh object is ever mutated.  Returns the
final heap and either the error or a reference to the result list. -/
def optimizeHeap (costFn : List Color → ℝ) (initStream : ℕ → Color)
    (rng : ℕ → Fin 3 × ℚ) (n : ℕ) (inputRef : ℕ) (h : Heap) :
    Heap × Except String ℕ :=
  let input_colors := heapRead h inputRef
  if input_colors = [] then
    let colorsRef := h.length
    let h1 := heapAlloc h ((List.range n).map initStream)
    (annealLoopHeap costFn rng colorsRef initialTemperature 0 h1, .ok colorsRef)
  else if input_colors.length ≠ n then
    (h, .error (configErrorMsg n))
  else
    let colorsRef := h.length
    let h1 := heapAlloc h input_colors
    (annealLoopHeap costFn rng colorsRef initialTemperature 0 h1, .ok colorsRef)

/-- A fixed (constant) stream of `random_rgb_color` draws, for concrete
instantiations of the optimizer theorems. -/
def initZero : ℕ → Color := fun _ => (0, 0, 0)

/-- A fixed (constant) stream of `random_nearby_color` draws. -/
def rngZero : ℕ → Fin 3 × ℚ := fun _ => (0, 0)

lemma mutateStep_cost_le (costFn : List Color → ℝ) (colors : List Color)
    (i : ℕ) (ch : Fin 3) (delta : ℚ) :
    costFn (mutateStep costFn colors i ch delta) ≤ costFn colors := by
  simp only [mutateStep]
  split
  · exact le_of_lt (by assumption)
  · exact le_refl _

lemma innerPassAux_cost_le (costFn : List Color → ℝ) (rng : ℕ → Fin 3 × ℚ) :
    ∀ (idxs : List ℕ) (ctr : ℕ) (colors : List Color),
      costFn (innerPassAux costFn rng idxs ctr colors).1 ≤ costFn colors := by
  intro idxs
  induction idxs with
  | nil => intro ctr colors; exact le_refl _
  | cons i rest ih =>
    intro ctr colors
    calc costFn (innerPassAux costFn rng (i :: rest) ctr colors).1
        = costFn (innerPassAux costFn rng rest (ctr + 1)
            (mutateStep costFn colors i (rng ctr).1 (rng ctr).2)).1 := rfl
      _ ≤ costFn (mutateStep costFn colors i (rng ctr).1 (rng ctr).2) := ih _ _
      _ ≤ costFn colors := mutateStep_cost_le _ _ _ _ _

lemma annealLoop_cost_le (costFn : List Color → ℝ) (rng : ℕ → Fin 3 × ℚ) :
    ∀ (n : ℕ) (t : ℚ), decaySteps t = n → ∀ (ctr idx : ℕ) (colors : List Color),
      costFn (annealLoop costFn rng t ctr idx colors).1 ≤ costFn colors := by
  intro n
  induction n with
  | zero =>
    intro t ht ctr idx colors
    have hle : ¬ t > cutoff := by
      intro hgt
      rw [decaySteps_cool hgt] at ht; omega
    rw [annealLoop, dif_neg hle]
  | succ n ih =>
    intro t ht ctr idx colors
    by_cases hgt : t > cutoff
    · rw [annealLoop, dif_pos hgt]
      have ht' : decaySteps (t * cooling_rate) = n := by
        have := decaySteps_cool hgt; omega
      calc costFn (annealLoop costFn rng (t * cooling_rate)
              (innerPass costFn rng ctr colors).2 (idx + 1)
              (innerPass costFn rng ctr colors).1).1
          ≤ costFn (innerPass costFn rng ctr colors).1 := ih _ ht' _ _ _
        _ ≤ costFn colors := innerPassAux_cost_le _ _ _ _ _
    · rw [annealLoop, dif_neg hgt]

lemma annealLoop_idx (costFn : List Color → ℝ) (rng : ℕ → Fin 3 × ℚ) :
    ∀ (n : ℕ) (t : ℚ), decaySteps t = n → ∀ (ctr idx : ℕ) (colors : List Color),
      (annealLoop costFn rng t ctr idx colors).2 = idx + n := by
  intro n
  induction n with
  | zero =>
    intro t ht ctr idx colors
    have hle : ¬ t > cutoff := by
      intro hgt
      rw [decaySteps_cool hgt] at ht; omega
    rw [annealLoop, dif_neg hle]
    simp
  | succ n ih =>
    intro t ht ctr idx colors
    have hgt : t > cutoff := by
      by_contra hle
      rw [decaySteps_of_le (le_of_not_lt hle)] at ht
      omega
    rw [annealLoop, dif_pos hgt]
    have ht' : decaySteps (t * cooling_rate) = n := by
      have := decaySteps_cool hgt; omega
    rw [ih _ ht' _ _ _]
    omega

lemma decaySteps_initial : decaySteps initialTemperature = 1604 := by
  rw [decaySteps, Nat.find_eq_iff]
  constructor
  · show initialTemperature * cooling_rate ^ 1604 ≤ cutoff
    norm_num [initialTemperature, cooling_rate, cutoff]
  · intro k hk hle
    have hmono : cooling_rate ^ 1603 ≤ cooling_rate ^ k :=
      pow_le_pow_of_le_one (by norm_num [cooling_rate])
        (by norm_num [cooling_rate]) (by omega)
    have hchain : initialTemperature * cooling_rate ^ 1603 ≤ cutoff := by
      calc initialTemperature * cooling_rate ^ 1603
          ≤ initialTemperature * cooling_rate ^ k :=
            mul_le_mul_of_nonneg_left hmono (by norm_num [initialTemperature])
        _ ≤ cutoff := hle
    revert hchain
    norm_num [initialTemperature, cooling_rate, cutoff]

/-- C2: the palette returned by `optimize` on a valid starting palette costs
no more than the starting palette, and no single mutation step of the inner
loop ever increases the cost of the current palette. -/
theorem optimize_cost_nonincreasing (n : ℕ) (input_colors : List Color)
    (initStream : ℕ → Color) (rng : ℕ → Fin 3 × ℚ)
    (hne : input_colors ≠ []) (hlen : input_colors.length = n) :
    optimize n input_colors initStream rng = .ok (annealPalette input_colors rng) ∧
    cost (annealPalette input_colors rng) ≤ cost input_colors ∧
    (∀ (colors : List Color) (i : ℕ) (ch : Fin 3) (delta : ℚ),
      cost (mutateStep cost colors i ch delta) ≤ cost colors) := by
  refine ⟨?_, ?_, fun colors i ch delta => mutateStep_cost_le _ _ _ _ _⟩
  · rw [optimize, if_neg hne, if_neg (by omega)]
  · exact annealLoop_cost_le cost rng _ initialTemperature rfl 0 0 input_colors

/-- Witness for C2 at a concrete input. -/
theorem optimize_cost_nonincreasing_witness :
    optimize 1 [((0 : ℤ), (0 : ℤ), (0 : ℤ))] initZero rngZero =
      .ok (annealPalette [((0 : ℤ), (0 : ℤ), (0 : ℤ))] rngZero) ∧
    cost (annealPalette [((0 : ℤ), (0 : ℤ), (0 : ℤ))] rngZero) ≤
      cost [((0 : ℤ), (0 : ℤ), (0 : ℤ))] := by
  have h := optimize_cost_nonincreasing 1 [((0 : ℤ), (0 : ℤ), (0 : ℤ))]
    initZero rngZero (by simp) (by simp)
  exact ⟨h.1, h.2.1⟩

/-- C3 counterexample: an empty caller-supplied list whose length (0) differs
from `N = 5` does not raise the `ConfigError`; the source's first branch
treats `[]` as "no palette supplied" and draws random colors instead. -/
theorem optimize_empty_list_no_error :
    optimize 5 [] initZero rngZero =
      .ok (annealPalette ((List.range 5).map initZero) rngZero) ∧
    optimize 5 [] initZero rngZero ≠ .error (configErrorMsg 5) := by
  constructor
  · rw [optimize, if_pos rfl]
  · rw [optimize, if_pos rfl]; simp

/-- C3 (amended): for every non-empty caller-supplied `input_colors` whose
length differs from `n`, `optimize` fails with the `ConfigError` before any
optimization work, independently of both random streams. -/
theorem optimize_length_mismatch_error (n : ℕ) (input_colors : List Color)
    (initStream : ℕ → Color) (rng : ℕ → Fin 3 × ℚ)
    (hne : input_colors ≠ []) (hlen : input_colors.length ≠ n) :
    optimize n input_colors initStream rng = .error (configErrorMsg n) := by
  rw [optimize, if_neg hne, if_pos hlen]

/-- Witness for the amended C3 at a concrete input. -/
theorem optimize_length_mismatch_error_witness :
    optimize 2 [((0 : ℤ), (0 : ℤ), (0 : ℤ))] initZero rngZero =
      .error (configErrorMsg 2) :=
  optimize_length_mismatch_error 2 [((0 : ℤ), (0 : ℤ), (0 : ℤ))] initZero
    rngZero (by simp) (by simp)

/-- C7 counterexample: at a concrete input the outer loop of `optimize` runs
1604 iterations, not the claimed ~1833 (`⌈ln(1e-7)/ln(0.99)⌉ = 1604`). -/
theorem annealLoop_iterations_ne_1833 :
    (annealLoop cost rngZero initialTemperature 0 0 [((0 : ℤ), (0 : ℤ), (0 : ℤ))]).2 ≠ 1833 := by
  rw [annealLoop_idx cost rngZero (decaySteps initialTemperature) initialTemperature rfl]
  rw [decaySteps_initial]
  omega

/-- C7 (amended): for every palette, counter state and random stream, the
`while temperature > cutoff` loop of `optimize` terminates after exactly
`⌈ln(cutoff/1000)/ln(0.99)⌉ = 1604` outer iterations, independent of the
input. -/
theorem annealLoop_iterations (rng : ℕ → Fin 3 × ℚ) (ctr : ℕ)
    (colors : List Color) :
    (annealLoop cost rng initialTemperature ctr 0 colors).2 = 1604 := by
  rw [annealLoop_idx cost rng (decaySteps initialTemperature) initialTemperature rfl]
  rw [decaySteps_initial]

/-- C9: `hex_to_rgb` maps `"#FF5733"` to `(255, 87, 51)`, and every string
with a missing leading `#` or a length other than 7 — in particular
`"FF5733"` and `"#FF573"` — fails with the format `ValueError`. -/
theorem hex_to_rgb_spec :
    hex_to_rgb "#FF5733".toList = .ok (255, 87, 51) ∧
    (∀ s : List Char, (¬ pyStartsWith s '#' ∨ s.length ≠ 7) →
      hex_to_rgb s = .error hexFormatErrorMsg) ∧
    hex_to_rgb "FF5733".toList = .error hexFormatErrorMsg ∧
    hex_to_rgb "#FF573".toList = .error hexFormatErrorMsg := by
  refine ⟨by rfl, ?_, by rfl, by rfl⟩
  intro s h
  unfold hex_to_rgb
  rw [if_pos h]

/-- Witness for C9: the universally quantified branch applied at `"FF5733"`. -/
theorem hex_to_rgb_spec_witness :
    (¬ pyStartsWith "FF5733".toList '#' ∨ ("FF5733".toList).length ≠ 7) ∧
    hex_to_rgb "FF5733".toList = .error hexFormatErrorMsg :=
  ⟨Or.inl (by decide), hex_to_rgb_spec.2.1 _ (Or.inl (by decide))⟩

/-- C1: the sRGB linearization inside `rgb_to_lab` disagrees with
`linear_rgb_from_srgb` — at channel value 128 the former computes
`_f((v + 0.055)/1.055) = ((v + 0.055)/1.055)^(1/3)` (the Lab companding
helper is mistakenly applied), while the latter computes
`((v + 0.055)/1.055)^2.4`. -/
theorem rgb_to_lab_linearization_differs :
    rgb_to_lab_srgb_step ((128 : ℝ) / 255) ≠ linear_rgb_from_srgb 128 := by
  have hstep : rgb_to_lab_srgb_step ((128 : ℝ) / 255) =
      (((128 : ℝ) / 255 + 0.055) / 1.055) ^ ((1 : ℝ)/3) := by
    rw [rgb_to_lab_srgb_step, if_pos (by norm_num), labF, if_pos (by norm_num)]
  have hlin : linear_rgb_from_srgb 128 =
      (((128 : ℝ) / 255 + 0.055) / 1.055) ^ (2.4 : ℝ) := by
    simp only [linear_rgb_from_srgb]
    rw [if_neg (by norm_num)]
    norm_num
  have hkey : (((128 : ℝ) / 255 + 0.055) / 1.055) ^ (2.4 : ℝ) <
      (((128 : ℝ) / 255 + 0.055) / 1.055) ^ ((1 : ℝ)/3) :=
    Real.rpow_lt_rpow_of_exponent_gt (by norm_num) (by norm_num) (by norm_num)
  rw [hstep, hlin]
  exact (ne_of_lt hkey).symm

lemma pyInt_natCast (v : ℕ) : pyInt (v : ℝ) = v := by
  rw [pyInt, if_neg (not_lt.mpr (by positivity))]
  exact Int.floor_natCast v

lemma pyInt_add_half_natCast (v : ℕ) : pyInt (0.5 + (v : ℝ)) = v := by
  rw [pyInt, if_neg (not_lt.mpr (by positivity))]
  rw [Int.floor_eq_iff]
  constructor
  · push_cast; norm_num
  · push_cast; linarith

lemma pyIntQ_intCast (z : ℤ) : pyIntQ (z : ℚ) = z := by
  rw [pyIntQ]
  split
  · exact Int.ceil_intCast z
  · exact Int.floor_intCast z

lemma rpow_roundtrip {t : ℝ} (ht : 0 ≤ t) :
    (t ^ (2.4 : ℝ)) ^ ((1.0 : ℝ)/2.4) = t := by
  rw [← Real.rpow_mul ht]
  norm_num

/-- Concrete bound: at the smallest power-branch channel (v = 11, where
`(11/255 + 0.055)/1.055 = 1001/10761`), the linearized value still clears the
`0.0031308` threshold of `srgb_from_linear_rgb`. -/
lemma linearization_lower_bound :
    (0.0031308 : ℝ) ≤ (1001/10761 : ℝ) ^ (2.4 : ℝ) := by
  have h5 : ((1001/10761 : ℝ) ^ (2.4 : ℝ)) ^ (5 : ℕ) = (1001/10761 : ℝ) ^ (12 : ℕ) := by
    rw [← Real.rpow_natCast ((1001/10761 : ℝ) ^ (2.4 : ℝ)) 5,
        ← Real.rpow_mul (by norm_num : (0 : ℝ) ≤ 1001/10761)]
    have he : (2.4 : ℝ) * (5 : ℕ) = ((12 : ℕ) : ℝ) := by norm_num
    rw [he, Real.rpow_natCast]
  have hcmp : (0.0031308 : ℝ) ^ (5 : ℕ) ≤ ((1001/10761 : ℝ) ^ (2.4 : ℝ)) ^ (5 : ℕ) := by
    rw [h5]; norm_num
  exact (pow_le_pow_iff_left₀ (by norm_num)
    (Real.rpow_nonneg (by norm_num) _) (by norm_num)).mp hcmp

/-- The encode/decode round trip is exact on every displayable channel:
`srgb_from_linear_rgb(linear_rgb_from_srgb(v)) = v` for `v` in `[0, 255]`. -/
lemma srgb_linear_roundtrip {v : ℕ} (hv : v ≤ 255) :
    srgb_from_linear_rgb (linear_rgb_from_srgb v) = (v : ℤ) := by
  have hv255 : (v : ℝ) ≤ 255 := by exact_mod_cast hv
  by_cases hz : v = 0
  · subst hz
    simp only [linear_rgb_from_srgb, srgb_from_linear_rgb]
    norm_num
  by_cases hsmall : v ≤ 10
  · have h1 : (1 : ℝ) ≤ (v : ℝ) := by
      exact_mod_cast Nat.one_le_iff_ne_zero.mpr hz
    have h10 : (v : ℝ) ≤ 10 := by exact_mod_cast hsmall
    simp only [linear_rgb_from_srgb]
    rw [if_pos (by rw [div_lt_iff₀ (by norm_num : (0:ℝ) < 255.0)]; nlinarith)]
    simp only [srgb_from_linear_rgb]
    rw [if_neg (not_le.mpr (by
      apply div_pos (div_pos (by linarith) (by norm_num)) (by norm_num)))]
    rw [if_neg (not_le.mpr (by
      rw [div_lt_one (by norm_num : (0:ℝ) < 12.92), div_lt_iff₀ (by norm_num : (0:ℝ) < 255.0)]
      nlinarith))]
    rw [if_pos (by
      rw [div_lt_iff₀ (by norm_num : (0:ℝ) < 12.92), div_lt_iff₀ (by norm_num : (0:ℝ) < 255.0)]
      nlinarith)]
    have harg : (0.5 : ℝ) + (v : ℝ)/255.0/12.92 * 12.92 * 255 = 0.5 + (v : ℝ) := by
      field_simp
      ring
    rw [harg, pyInt_add_half_natCast]
  · push_neg at hsmall
    have h11 : (11 : ℝ) ≤ (v : ℝ) := by exact_mod_cast hsmall
    by_cases hfull : v = 255
    · subst hfull
      simp only [linear_rgb_from_srgb]
      rw [if_neg (by norm_num)]
      have ht1 : (((255 : ℕ) : ℝ)/255.0 + 0.055) / 1.055 = 1 := by norm_num
      rw [ht1, Real.one_rpow]
      simp only [srgb_from_linear_rgb]
      rw [if_neg (by norm_num), if_pos (by norm_num)]
      norm_num
    · have h254 : (v : ℝ) ≤ 254 := by exact_mod_cast (by omega : v ≤ 254)
      simp only [linear_rgb_from_srgb]
      rw [if_neg (not_lt.mpr (by
        rw [le_div_iff₀ (by norm_num : (0:ℝ) < 255.0)]
        nlinarith))]
      have ht0 : (0 : ℝ) < ((v : ℝ)/255.0 + 0.055) / 1.055 := by positivity
      have ht1 : ((v : ℝ)/255.0 + 0.055) / 1.055 < 1 := by
        rw [div_lt_one (by norm_num : (0:ℝ) < 1.055)]
        rw [div_add' _ _ _ (by norm_num : (255.0:ℝ) ≠ 0), div_lt_iff₀ (by norm_num : (0:ℝ) < 255.0)]
        nlinarith
      have htlo : (1001/10761 : ℝ) ≤ ((v : ℝ)/255.0 + 0.055) / 1.055 := by
        rw [le_div_iff₀ (by norm_num : (0:ℝ) < 1.055)]
        rw [div_add' _ _ _ (by norm_num : (255.0:ℝ) ≠ 0), le_div_iff₀ (by norm_num : (0:ℝ) < 255.0)]
        nlinarith
      have hL0 : (0 : ℝ) < (((v : ℝ)/255.0 + 0.055) / 1.055) ^ (2.4 : ℝ) :=
        Real.rpow_pos_of_pos ht0 _
      have hL1 : (((v : ℝ)/255.0 + 0.055) / 1.055) ^ (2.4 : ℝ) < 1 :=
        Real.rpow_lt_one (le_of_lt ht0) ht1 (by norm_num)
      have hLlo : (0.0031308 : ℝ) ≤ (((v : ℝ)/255.0 + 0.055) / 1.055) ^ (2.4 : ℝ) :=
        le_trans linearization_lower_bound
          (Real.rpow_le_rpow (by norm_num) htlo (by norm_num))
      simp only [srgb_from_linear_rgb]
      rw [if_neg (not_le.mpr hL0), if_neg (not_le.mpr hL1), if_neg (not_lt.mpr hLlo)]
      rw [rpow_roundtrip (le_of_lt ht0)]
      have harg : (0 : ℝ) + 255 * (((v : ℝ)/255.0 + 0.055) / 1.055 * 1.055 - 0.055) = (v : ℝ) := by
        field_simp
        ring
      rw [harg, pyInt_natCast]

lemma linearLookup_eq {c : ℤ} (h0 : 0 ≤ c) (h255 : c ≤ 255) :
    linearLookup c = linear_rgb_from_srgb c.toNat := by
  have hlt : c.toNat < 256 := by omega
  rw [linearLookup, srgb_to_linear_rgb_lookup, List.getD_eq_getElem?_getD,
      List.getElem?_map, List.getElem?_range hlt]
  rfl

/-- C5: zero severity is the identity, both for the Brettel simulation (for
every deficiency tag, on displayable colors) and for the monochrome blend. -/
theorem zero_severity_identity :
    (∀ (c : Color) (t : DefTag), ColorInRange c → brettel c t 0 = c) ∧
    (∀ c : Color, monochrome_with_severity c 0 = c) := by
  constructor
  · intro c t hc
    obtain ⟨r, g, b⟩ := c
    obtain ⟨h1, h2, h3, h4, h5, h6⟩ := hc
    have hmix : ∀ x y : ℝ, x * (0:ℝ) + y * (1.0 - (0:ℝ)) = y := by
      intro x y; ring
    simp only [brettel]
    rw [hmix, hmix, hmix]
    rw [linearLookup_eq h1 h2, linearLookup_eq h3 h4, linearLookup_eq h5 h6]
    rw [srgb_linear_roundtrip (by omega), srgb_linear_roundtrip (by omega),
        srgb_linear_roundtrip (by omega)]
    rw [Int.toNat_of_nonneg h1, Int.toNat_of_nonneg h3, Int.toNat_of_nonneg h5]
  · intro c
    obtain ⟨r, g, b⟩ := c
    have h1 : ∀ z w : ℤ, (z : ℚ) * 0 + (1.0 - 0) * (w : ℚ) = (w : ℚ) := by
      intro z w; norm_num
    simp only [monochrome_with_severity, h1, pyIntQ_intCast]

/-- Witness for C5 at a concrete color. -/
theorem zero_severity_identity_witness :
    brettel ((10 : ℤ), (20 : ℤ), (30 : ℤ)) DefTag.protan 0 = ((10 : ℤ), (20 : ℤ), (30 : ℤ)) ∧
    monochrome_with_severity ((10 : ℤ), (20 : ℤ), (30 : ℤ)) 0 = ((10 : ℤ), (20 : ℤ), (30 : ℤ)) :=
  ⟨zero_severity_identity.1 _ DefTag.protan (by decide),
   zero_severity_identity.2 _⟩

lemma srgb_encode_lower_bound :
    (0.055/1.055 : ℝ) ≤ (0.0031308 : ℝ) ^ ((1.0 : ℝ)/2.4) := by
  have h12 : ((0.0031308 : ℝ) ^ ((1.0 : ℝ)/2.4)) ^ (12 : ℕ) = (0.0031308 : ℝ) ^ (5 : ℕ) := by
    rw [← Real.rpow_natCast ((0.0031308 : ℝ) ^ ((1.0 : ℝ)/2.4)) 12,
        ← Real.rpow_mul (by norm_num : (0 : ℝ) ≤ 0.0031308)]
    have he : (1.0 : ℝ)/2.4 * (12 : ℕ) = ((5 : ℕ) : ℝ) := by norm_num
    rw [he, Real.rpow_natCast]
  have hcmp : (0.055/1.055 : ℝ) ^ (12 : ℕ) ≤ ((0.0031308 : ℝ) ^ ((1.0 : ℝ)/2.4)) ^ (12 : ℕ) := by
    rw [h12]; norm_num
  exact (pow_le_pow_iff_left₀ (by norm_num)
    (Real.rpow_nonneg (by norm_num) _) (by norm_num)).mp hcmp

/-- `srgb_from_linear_rgb` clamps: its output channel lies in `[0, 255]` for
every real input. -/
lemma srgb_from_linear_rgb_range (x : ℝ) :
    0 ≤ srgb_from_linear_rgb x ∧ srgb_from_linear_rgb x ≤ 255 := by
  simp only [srgb_from_linear_rgb]
  split_ifs with h1 h2 h3
  · norm_num
  · norm_num
  · push_neg at h1 h2
    have harg0 : (0 : ℝ) ≤ 0.5 + x * 12.92 * 255 := by nlinarith
    have harg1 : 0.5 + x * 12.92 * 255 < 11 := by nlinarith
    rw [pyInt, if_neg (not_lt.mpr harg0)]
    refine ⟨Int.floor_nonneg.mpr harg0, ?_⟩
    have hfl : ⌊(0.5 : ℝ) + x * 12.92 * 255⌋ < 11 := Int.floor_lt.mpr (by exact_mod_cast harg1)
    omega
  · push_neg at h1 h2 h3
    have hx0 : (0 : ℝ) < x := lt_of_lt_of_le (by norm_num) h3
    have hb1 : x ^ ((1.0 : ℝ)/2.4) < 1 := Real.rpow_lt_one (le_of_lt hx0) h2 (by norm_num)
    have hblo : (0.055/1.055 : ℝ) ≤ x ^ ((1.0 : ℝ)/2.4) :=
      le_trans srgb_encode_lower_bound (Real.rpow_le_rpow (by norm_num) h3 (by norm_num))
    have harg0 : (0 : ℝ) ≤ 0 + 255 * (x ^ ((1.0 : ℝ)/2.4) * 1.055 - 0.055) := by nlinarith
    have harg1 : 0 + 255 * (x ^ ((1.0 : ℝ)/2.4) * 1.055 - 0.055) < 255 := by nlinarith
    rw [pyInt, if_neg (not_lt.mpr harg0)]
    refine ⟨Int.floor_nonneg.mpr harg0, ?_⟩
    have hfl : ⌊(0 : ℝ) + 255 * (x ^ ((1.0 : ℝ)/2.4) * 1.055 - 0.055)⌋ < 255 :=
      Int.floor_lt.mpr (by exact_mod_cast harg1)
    omega

lemma brettel_in_range (c : Color) (t : DefTag) (s : ℝ) :
    ColorInRange (brettel c t s) := by
  obtain ⟨r, g, b⟩ := c
  exact ⟨(srgb_from_linear_rgb_range _).1, (srgb_from_linear_rgb_range _).2,
    (srgb_from_linear_rgb_range _).1, (srgb_from_linear_rgb_range _).2,
    (srgb_from_linear_rgb_range _).1, (srgb_from_linear_rgb_range _).2⟩

lemma pyIntQ_bounds {x : ℚ} (h0 : 0 ≤ x) (h255 : x ≤ 255) :
    0 ≤ pyIntQ x ∧ pyIntQ x ≤ 255 := by
  rw [pyIntQ, if_neg (not_lt.mpr h0)]
  refine ⟨Int.floor_nonneg.mpr h0, ?_⟩
  have h := Int.floor_mono h255
  simpa using h

lemma pyRound_bounds {x : ℚ} (h0 : 0 ≤ x) (h255 : x ≤ 255) :
    0 ≤ pyRound x ∧ pyRound x ≤ 255 := by
  have hf0 : 0 ≤ ⌊x⌋ := Int.floor_nonneg.mpr h0
  have hfle : (⌊x⌋ : ℚ) ≤ x := Int.floor_le x
  have hup : ⌊x⌋ ≤ 255 := by
    have h := Int.floor_mono h255
    simpa using h
  rw [pyRound]
  split_ifs with hA hB hC
  · exact ⟨hf0, hup⟩
  · have hlt : (⌊x⌋ : ℚ) < 255 := by linarith
    have hzi : ⌊x⌋ < 255 := by exact_mod_cast hlt
    omega
  · exact ⟨hf0, hup⟩
  · have hge : 1/2 ≤ x - ⌊x⌋ := le_of_not_lt hA
    have hlt : (⌊x⌋ : ℚ) < 255 := by linarith
    have hzi : ⌊x⌋ < 255 := by exact_mod_cast hlt
    omega

lemma blend_in_range {z v : ℚ} (s : ℚ) (hz0 : 0 ≤ z) (hz1 : z ≤ 255)
    (hv0 : 0 ≤ v) (hv1 : v ≤ 255) (hs0 : 0 ≤ s) (hs1 : s ≤ 1) :
    0 ≤ pyIntQ (z * s + (1.0 - s) * v) ∧ pyIntQ (z * s + (1.0 - s) * v) ≤ 255 := by
  refine pyIntQ_bounds ?_ ?_
  · nlinarith
  · nlinarith

lemma monochrome_in_range (c : Color) (s : ℚ) (hc : ColorInRange c)
    (hs0 : 0 ≤ s) (hs1 : s ≤ 1) :
    ColorInRange (monochrome_with_severity c s) := by
  obtain ⟨r, g, b⟩ := c
  obtain ⟨hr0, hr1, hg0, hg1, hb0, hb1⟩ := hc
  have hr0q : (0 : ℚ) ≤ (r : ℚ) := by exact_mod_cast hr0
  have hr1q : (r : ℚ) ≤ 255 := by exact_mod_cast hr1
  have hg0q : (0 : ℚ) ≤ (g : ℚ) := by exact_mod_cast hg0
  have hg1q : (g : ℚ) ≤ 255 := by exact_mod_cast hg1
  have hb0q : (0 : ℚ) ≤ (b : ℚ) := by exact_mod_cast hb0
  have hb1q : (b : ℚ) ≤ 255 := by exact_mod_cast hb1
  have hz := @pyRound_bounds ((r : ℚ) * 0.299 + (g : ℚ) * 0.587 + (b : ℚ) * 0.114)
    (by nlinarith) (by nlinarith)
  have hz0q : (0 : ℚ) ≤ (pyRound ((r : ℚ) * 0.299 + (g : ℚ) * 0.587 + (b : ℚ) * 0.114) : ℚ) := by
    exact_mod_cast hz.1
  have hz1q : (pyRound ((r : ℚ) * 0.299 + (g : ℚ) * 0.587 + (b : ℚ) * 0.114) : ℚ) ≤ 255 := by
    exact_mod_cast hz.2
  exact ⟨(blend_in_range s hz0q hz1q hr0q hr1q hs0 hs1).1,
    (blend_in_range s hz0q hz1q hr0q hr1q hs0 hs1).2,
    (blend_in_range s hz0q hz1q hg0q hg1q hs0 hs1).1,
    (blend_in_range s hz0q hz1q hg0q hg1q hs0 hs1).2,
    (blend_in_range s hz0q hz1q hb0q hb1q hs0 hs1).1,
    (blend_in_range s hz0q hz1q hb0q hb1q hs0 hs1).2⟩

lemma clamped_channel_bounds (x : ℚ) :
    0 ≤ pyIntQ (min (max x 0) 1 * 255) ∧ pyIntQ (min (max x 0) 1 * 255) ≤ 255 := by
  refine pyIntQ_bounds ?_ ?_
  · have h : (0 : ℚ) ≤ min (max x 0) 1 := le_min (le_max_right x 0) zero_le_one
    nlinarith
  · have h : min (max x 0) 1 ≤ 1 := min_le_right _ _
    have h0 : (0 : ℚ) ≤ min (max x 0) 1 := le_min (le_max_right x 0) zero_le_one
    nlinarith

lemma random_nearby_in_range (c : Color) (ch : Fin 3) (d : ℚ)
    (hc : ColorInRange c) : ColorInRange (random_nearby_color ch d c) := by
  obtain ⟨hr0, hr1, hg0, hg1, hb0, hb1⟩ := hc
  fin_cases ch
  · exact ⟨(clamped_channel_bounds _).1, (clamped_channel_bounds _).2, hg0, hg1, hb0, hb1⟩
  · exact ⟨hr0, hr1, (clamped_channel_bounds _).1, (clamped_channel_bounds _).2, hb0, hb1⟩
  · exact ⟨hr0, hr1, hg0, hg1, (clamped_channel_bounds _).1, (clamped_channel_bounds _).2⟩

/-- C8: on displayable colors and severities in `[0,1]`, every
color-producing transform returns channels inside `[0, 255]`: `brettel`
(through the clamping `srgb_from_linear_rgb`), `monochrome_with_severity`,
and `random_nearby_color` (whose perturbation is clamped to `[0,1]` before
rescaling). -/
theorem transforms_preserve_range :
    (∀ (c : Color) (t : DefTag) (s : ℝ), ColorInRange c → 0 ≤ s → s ≤ 1 →
      ColorInRange (brettel c t s)) ∧
    (∀ (c : Color) (s : ℚ), ColorInRange c → 0 ≤ s → s ≤ 1 →
      ColorInRange (monochrome_with_severity c s)) ∧
    (∀ (c : Color) (ch : Fin 3) (d : ℚ), ColorInRange c →
      -(1/20) ≤ d → d ≤ 1/20 → ColorInRange (random_nearby_color ch d c)) :=
  ⟨fun c t s _ _ _ => brettel_in_range c t s,
   fun c s hc hs0 hs1 => monochrome_in_range c s hc hs0 hs1,
   fun c ch d hc _ _ => random_nearby_in_range c ch d hc⟩

/-- Witness for C8 at concrete inputs. -/
theorem transforms_preserve_range_witness :
    ColorInRange (brettel ((10 : ℤ), (20 : ℤ), (30 : ℤ)) DefTag.protan (1/2)) ∧
    ColorInRange (monochrome_with_severity ((10 : ℤ), (20 : ℤ), (30 : ℤ)) (1/2)) ∧
    ColorInRange (random_nearby_color 0 (1/100) ((10 : ℤ), (20 : ℤ), (30 : ℤ))) :=
  ⟨transforms_preserve_range.1 _ DefTag.protan _ (by decide) (by norm_num) (by norm_num),
   transforms_preserve_range.2.1 _ _ (by decide) (by norm_num) (by norm_num),
   transforms_preserve_range.2.2 _ 0 _ (by decide) (by norm_num) (by norm_num)⟩

lemma quad_form_nonneg {a b c R : ℝ} (h1 : -2 ≤ R) (h2 : R ≤ 2) :
    0 ≤ a ^ 2 + b ^ 2 + c ^ 2 + R * b * c := by
  nlinarith [sq_nonneg a, mul_nonneg (by linarith : (0:ℝ) ≤ 2 + R) (sq_nonneg (b + c)),
    mul_nonneg (by linarith : (0:ℝ) ≤ 2 - R) (sq_nonneg (b - c))]

/-- The radicand tail of CIEDE2000 is non-negative whenever the mean adjusted
chroma is non-negative: the rotation term satisfies `|RT| <= 2`, so the
quadratic form under the final square root cannot go negative. -/
lemma ciede2000Tail_nonneg (dL dC C1p C2p dh Lbar Cbarp hbar : ℝ)
    (hC : 0 ≤ Cbarp) : 0 ≤ ciede2000Tail dL dC C1p C2p dh Lbar Cbarp hbar := by
  simp only [ciede2000Tail]
  set s := Real.sqrt (Cbarp ^ 7 / (Cbarp ^ 7 + 25 ^ 7)) with hs
  set st := Real.sin (radians (60 * Real.exp (-(((hbar - radians 275) / radians 25)) ^ 2))) with hst
  have hs0 : 0 ≤ s := Real.sqrt_nonneg _
  have hs1 : s ≤ 1 := by
    rw [hs, show (1:ℝ) = Real.sqrt 1 from Real.sqrt_one.symm]
    apply Real.sqrt_le_sqrt
    rw [div_le_one (by positivity)]
    linarith
  have hst1 : -1 ≤ st ∧ st ≤ 1 := ⟨Real.neg_one_le_sin _, Real.sin_le_one _⟩
  apply quad_form_nonneg
  · nlinarith [mul_nonneg hs0 (by linarith [hst1.1] : (0:ℝ) ≤ 1 + st)]
  · nlinarith [mul_nonneg hs0 (by linarith [hst1.2] : (0:ℝ) ≤ 1 - st)]

lemma ciede2000Radicand_nonneg (l1 l2 : LabColor) :
    0 ≤ ciede2000Radicand l1 l2 := by
  simp only [ciede2000Radicand]
  apply ciede2000Tail_nonneg
  positivity

lemma deltahprimeOf_self (C1p C2p h : ℝ) : deltahprimeOf C1p C2p h h = 0 := by
  have hpi : |(0:ℝ)| ≤ π := by simp [le_of_lt Real.pi_pos]
  simp only [deltahprimeOf, sub_self]
  split_ifs with hne
  · rfl
  · rfl

lemma ciede2000Tail_zero (C1p C2p Lbar Cbarp hbar : ℝ) :
    ciede2000Tail 0 0 C1p C2p 0 Lbar Cbarp hbar = 0 := by
  simp only [ciede2000Tail]
  norm_num

lemma delta_e_self (l : LabColor) : delta_e_ciede2000 l l = 0 := by
  rw [delta_e_ciede2000]
  have h : ciede2000Radicand l l = 0 := by
    simp only [ciede2000Radicand, sub_self, deltahprimeOf_self]
    exact ciede2000Tail_zero _ _ _ _ _
  rw [h, Real.sqrt_zero]

/-- C4: for every pair of Lab inputs the argument of the final square root in
`delta_e_ciede2000` is non-negative (so Python's `math.sqrt` cannot fail) and
the returned distance is non-negative; on identical Lab inputs the distance
is exactly 0. -/
theorem ciede2000_nonneg_and_self_zero :
    (∀ l1 l2 : LabColor, 0 ≤ ciede2000Radicand l1 l2 ∧ 0 ≤ delta_e_ciede2000 l1 l2) ∧
    (∀ l : LabColor, delta_e_ciede2000 l l = 0) :=
  ⟨fun l1 l2 => ⟨ciede2000Radicand_nonneg l1 l2, Real.sqrt_nonneg _⟩, delta_e_self⟩

lemma gFactor_comm (C1 C2 : ℝ) : gFactor C2 C1 = gFactor C1 C2 := by
  rw [gFactor, gFactor, add_comm C2 C1]

lemma deltahprimeOf_swap (C1p C2p h1 h2 : ℝ) :
    deltahprimeOf C2p C1p h2 h1 = -(deltahprimeOf C1p C2p h1 h2) := by
  have hpi : (0:ℝ) < π := Real.pi_pos
  simp only [deltahprimeOf]
  have hd : h1 - h2 = -(h2 - h1) := by ring
  by_cases hne : C1p * C2p ≠ 0
  · rw [if_pos (show C2p * C1p ≠ 0 by rwa [mul_comm]), if_pos hne, hd, abs_neg]
    by_cases habs : |h2 - h1| ≤ π
    · rw [if_pos habs, if_pos habs]
    · rw [if_neg habs, if_neg habs]
      by_cases hgt : h2 - h1 > π
      · rw [if_pos hgt, if_neg (show ¬(-(h2 - h1) > π) by push_neg; linarith)]
        ring
      · have hlt : -(h2 - h1) > π := by
          rcases lt_abs.mp (not_le.mp habs) with hc | hc
          · exact absurd hc hgt
          · linarith
        rw [if_neg hgt, if_pos hlt]
        ring
  · rw [if_neg (show ¬ C2p * C1p ≠ 0 by rwa [mul_comm]), if_neg hne, hd]

lemma hbarprimeOf_swap (C1p C2p h1 h2 : ℝ) :
    hbarprimeOf C2p C1p h2 h1 = hbarprimeOf C1p C2p h1 h2 := by
  simp only [hbarprimeOf]
  rw [add_comm h2 h1, mul_comm C2p C1p, abs_sub_comm h2 h1]

lemma ciede2000Tail_swap (L1 L2 C1p C2p dh hbar : ℝ) :
    ciede2000Tail (L1 - L2) (C1p - C2p) C2p C1p (-dh) ((L2 + L1)/2) ((C2p + C1p)/2) hbar =
    ciede2000Tail (L2 - L1) (C2p - C1p) C1p C2p dh ((L1 + L2)/2) ((C1p + C2p)/2) hbar := by
  simp only [ciede2000Tail]
  rw [mul_comm C2p C1p, neg_div, Real.sin_neg, add_comm L2 L1, add_comm C2p C1p]
  ring

/-- The CIEDE2000 radicand, hence the distance, is symmetric in its two Lab
arguments. -/
lemma ciede2000Radicand_comm (l1 l2 : LabColor) :
    ciede2000Radicand l2 l1 = ciede2000Radicand l1 l2 := by
  obtain ⟨L1, a1, b1⟩ := l1
  obtain ⟨L2, a2, b2⟩ := l2
  simp only [ciede2000Radicand]
  rw [gFactor_comm (Real.sqrt (a2 ^ 2 + b2 ^ 2)) (Real.sqrt (a1 ^ 2 + b1 ^ 2))]
  rw [deltahprimeOf_swap, hbarprimeOf_swap]
  exact ciede2000Tail_swap _ _ _ _ _ _

lemma delta_e_comm (l1 l2 : LabColor) :
    delta_e_ciede2000 l2 l1 = delta_e_ciede2000 l1 l2 := by
  rw [delta_e_ciede2000, delta_e_ciede2000, ciede2000Radicand_comm]

lemma distance_comm (c1 c2 : Color) : distance c2 c1 = distance c1 c2 :=
  delta_e_comm _ _

lemma perm_append_middle (A B C : List ℝ) :
    (A ++ (B ++ C)).Perm (B ++ (A ++ C)) := by
  rw [← List.append_assoc, ← List.append_assoc]
  exact List.perm_append_comm.append_right C

/-- Permuting the palette permutes the multiset of pairwise distances
(using the symmetry of `distance` when a pair flips orientation). -/
lemma pairwiseDistances_perm {l1 l2 : List Color} (h : l1.Perm l2) :
    (pairwiseDistances l1).Perm (pairwiseDistances l2) := by
  induction h with
  | nil => exact List.Perm.refl _
  | cons x h ih =>
    simp only [pairwiseDistances]
    exact List.Perm.append (h.map _) ih
  | swap x y l =>
    simp only [pairwiseDistances, List.map_cons, List.cons_append]
    rw [distance_comm y x]
    exact List.Perm.cons _ (perm_append_middle _ _ _)
  | trans h1 h2 ih1 ih2 => exact ih1.trans ih2

lemma average_perm {l1 l2 : List ℝ} (h : l1.Perm l2) : average l1 = average l2 := by
  by_cases h1 : l1 = []
  · subst h1
    have h2 : l2 = [] := h.symm.eq_nil
    subst h2
    rfl
  · have h2 : l2 ≠ [] := by
      intro hh
      subst hh
      exact h1 h.eq_nil
    rw [average, average, if_neg h1, if_neg h2, h.sum_eq, h.length_eq]

lemma distance_range_perm {l1 l2 : List ℝ} (h : l1.Perm l2) :
    distance_range l1 = distance_range l2 := by
  have hsort : l1.insertionSort (fun a b => a ≤ b) = l2.insertionSort (fun a b => a ≤ b) := by
    have hperm : (l1.insertionSort (fun a b => a ≤ b)).Perm
        (l2.insertionSort (fun a b => a ≤ b)) :=
      (List.perm_insertionSort _ l1).trans (h.trans (List.perm_insertionSort _ l2).symm)
    exact List.eq_of_perm_of_sorted hperm
      (List.sorted_insertionSort _ _) (List.sorted_insertionSort _ _)
  rw [distance_range, distance_range, h.length_eq, hsort]

/-- C6: `cost` is invariant under permutations of the palette. -/
theorem cost_perm_invariant (l1 l2 : List Color) (h : l1.Perm l2) :
    cost l1 = cost l2 := by
  have hd : ∀ vs : VisionSpace, ((distances l1 vs).Perm (distances l2 vs)) := by
    intro vs
    exact pairwiseDistances_perm (h.map _)
  have htarget : average_distance_from_target_colors l1 =
      average_distance_from_target_colors l2 := by
    rw [average_distance_from_target_colors, average_distance_from_target_colors]
    exact average_perm (h.map _)
  simp only [cost]
  rw [average_perm (hd VisionSpace.Normal), average_perm (hd VisionSpace.Protanopia),
      average_perm (hd VisionSpace.Deuteranopia), average_perm (hd VisionSpace.Tritanopia),
      distance_range_perm (hd VisionSpace.Normal), htarget]

/-- Witness for C6: a concrete two-color palette and its transposition. -/
theorem cost_perm_invariant_witness :
    ([((0:ℤ), (0:ℤ), (0:ℤ)), ((255:ℤ), (0:ℤ), (0:ℤ))].Perm
      [((255:ℤ), (0:ℤ), (0:ℤ)), ((0:ℤ), (0:ℤ), (0:ℤ))]) ∧
    cost [((0:ℤ), (0:ℤ), (0:ℤ)), ((255:ℤ), (0:ℤ), (0:ℤ))] =
      cost [((255:ℤ), (0:ℤ), (0:ℤ)), ((0:ℤ), (0:ℤ), (0:ℤ))] :=
  ⟨List.Perm.swap _ _ _, cost_perm_invariant _ _ (List.Perm.swap _ _ _)⟩

lemma heapAlloc_length (h : Heap) (v : List Color) :
    (heapAlloc h v).length = h.length + 1 := by
  simp [heapAlloc]

lemma heapWrite_length (h : Heap) (j : ℕ) (v : List Color) :
    (heapWrite h j v).length = h.length := by
  simp [heapWrite]

lemma heapRead_alloc_lt {h : Heap} {r : ℕ} (hr : r < h.length) (v : List Color) :
    heapRead (heapAlloc h v) r = heapRead h r := by
  rw [heapRead, heapRead, heapAlloc]
  simp [List.getD_eq_getElem?_getD, List.getElem?_append, hr]

lemma heapRead_write_ne {h : Heap} {r j : ℕ} (hne : r ≠ j) (v : List Color) :
    heapRead (heapWrite h j v) r = heapRead h r := by
  rw [heapRead, heapRead, heapWrite]
  simp [List.getD_eq_getElem?_getD, List.getElem?_set_ne (Ne.symm hne)]

/-- One heap-level mutation step touches only the freshly allocated candidate
object and the object behind `colorsRef`. -/
lemma mutateStepHeap_preserves (costFn : List Color → ℝ) (h : Heap)
    (colorsRef i : ℕ) (ch : Fin 3) (d : ℚ) {r : ℕ}
    (hr : r < h.length) (hne : r ≠ colorsRef) :
    heapRead (mutateStepHeap costFn h colorsRef i ch d) r = heapRead h r := by
  simp only [mutateStepHeap]
  have hbase : ∀ X, heapRead
      (heapWrite (heapAlloc h (heapRead h colorsRef)) h.length X) r = heapRead h r := by
    intro X
    rw [heapRead_write_ne (by omega), heapRead_alloc_lt hr]
  split
  · rw [heapRead_write_ne hne, hbase]
  · rw [hbase]

lemma mutateStepHeap_length_le (costFn : List Color → ℝ) (h : Heap)
    (colorsRef i : ℕ) (ch : Fin 3) (d : ℚ) :
    h.length ≤ (mutateStepHeap costFn h colorsRef i ch d).length := by
  simp only [mutateStepHeap]
  split
  · rw [heapWrite_length, heapWrite_length, heapAlloc_length]; omega
  · rw [heapWrite_length, heapAlloc_length]; omega

lemma innerPassHeapAux_preserves (costFn : List Color → ℝ)
    (rng : ℕ → Fin 3 × ℚ) (colorsRef : ℕ) :
    ∀ (idxs : List ℕ) (ctr : ℕ) (h : Heap) (r : ℕ), r < h.length → r ≠ colorsRef →
      heapRead (innerPassHeapAux costFn rng colorsRef idxs ctr h).1 r = heapRead h r ∧
      h.length ≤ (innerPassHeapAux costFn rng colorsRef idxs ctr h).1.length := by
  intro idxs
  induction idxs with
  | nil =>
    intro ctr h r hr hne
    exact ⟨rfl, le_refl _⟩
  | cons i rest ih =>
    intro ctr h r hr hne
    have hlen := mutateStepHeap_length_le costFn h colorsRef i (rng ctr).1 (rng ctr).2
    have hpres := mutateStepHeap_preserves costFn h colorsRef i (rng ctr).1 (rng ctr).2 hr hne
    obtain ⟨ih1, ih2⟩ := ih (ctr + 1)
      (mutateStepHeap costFn h colorsRef i (rng ctr).1 (rng ctr).2) r
      (lt_of_lt_of_le hr hlen) hne
    simp only [innerPassHeapAux]
    exact ⟨by rw [ih1, hpres], le_trans hlen ih2⟩

lemma annealLoopHeap_preserves (costFn : List Color → ℝ)
    (rng : ℕ → Fin 3 × ℚ) (colorsRef : ℕ) :
    ∀ (n : ℕ) (t : ℚ), decaySteps t = n →
      ∀ (ctr : ℕ) (h : Heap) (r : ℕ), r < h.length → r ≠ colorsRef →
        heapRead (annealLoopHeap costFn rng colorsRef t ctr h) r = heapRead h r := by
  intro n
  induction n with
  | zero =>
    intro t ht ctr h r hr hne
    have hle : ¬ t > cutoff := by
      intro hgt
      rw [decaySteps_cool hgt] at ht; omega
    rw [annealLoopHeap, dif_neg hle]
  | succ n ih =>
    intro t ht ctr h r hr hne
    have hgt : t > cutoff := by
      by_contra hle
      rw [decaySteps_of_le (le_of_not_lt hle)] at ht
      omega
    rw [annealLoopHeap, dif_pos hgt]
    have ht2 : decaySteps (t * cooling_rate) = n := by
      have := decaySteps_cool hgt; omega
    obtain ⟨h1, h2⟩ := innerPassHeapAux_preserves costFn rng colorsRef
      (List.range (heapRead h colorsRef).length) ctr h r hr hne
    rw [ih _ ht2 _ _ _ (lt_of_lt_of_le hr h2) hne, h1]

/-- C10: `optimize` never mutates the caller-supplied list object.  In the
heap model the starting palette is a fresh deep copy (allocated past every
existing object) and only that fresh object and per-iteration fresh
candidates are written, so the object behind `inputRef` is unchanged when
`optimize` returns — on the valid path, the error path, and the
random-initialization path alike. -/
theorem optimizeHeap_input_unchanged (costFn : List Color → ℝ)
    (initStream : ℕ → Color) (rng : ℕ → Fin 3 × ℚ) (n : ℕ) (inputRef : ℕ)
    (h : Heap) (hin : inputRef < h.length) :
    heapRead (optimizeHeap costFn initStream rng n inputRef h).1 inputRef =
      heapRead h inputRef := by
  simp only [optimizeHeap]
  split_ifs with h1 h2
  · dsimp only
    rw [annealLoopHeap_preserves costFn rng h.length (decaySteps initialTemperature)
        initialTemperature rfl 0 (heapAlloc h ((List.range n).map initStream)) inputRef
        (by rw [heapAlloc_length]; omega) (by omega)]
    exact heapRead_alloc_lt hin _
  · rfl
  · dsimp only
    rw [annealLoopHeap_preserves costFn rng h.length (decaySteps initialTemperature)
        initialTemperature rfl 0 (heapAlloc h (heapRead h inputRef)) inputRef
        (by rw [heapAlloc_length]; omega) (by omega)]
    exact heapRead_alloc_lt hin _

/-- Witness for C10 at a concrete heap. -/
theorem optimizeHeap_input_unchanged_witness :
    heapRead (optimizeHeap cost initZero rngZero 1 0 [[((0:ℤ), (0:ℤ), (0:ℤ))]]).1 0 =
      heapRead [[((0:ℤ), (0:ℤ), (0:ℤ))]] 0 :=
  optimizeHeap_input_unchanged cost initZero rngZero 1 0 _ (by simp)

end
